import Mathlib

/-!
Verification of the lightgraph-rag-architecture backend core: a shallow
embedding of the multi-tenant engine-instance registry
(`src/services/lightrag_service.py`), the tenant lifecycle manager
(`src/services/group_service.py`), the conversation orchestrator
(`src/services/conversation_service.py`), the retrieval orchestrator
(`src/services/query_service.py`) and the SSE streaming routes
(`src/routes/query.py`, `src/routes/conversations.py`).

Modelling conventions:
- SQLite rows become Lean structures; the four tables live in one `St`
  record together with the filesystem directory set, the in-process
  engine-instance cache (`_instances`), and a logical clock `now` that
  stands for `datetime('now')`.  The clock is bumped after every insert, so
  `created_at` is strictly monotone in insertion order (the spec's data
  model declares ties broken by insertion order); `ORDER BY created_at
  DESC` over a conversation's messages is therefore list reversal.
- `uuid.uuid4().hex[:12]` id generation becomes a fresh-id counter for
  messages and engine instances, and an explicit id parameter for groups.
- Python exceptions become a `ServiceError` sum; `ServiceError.other`
  stands for any exception outside the repository's taxonomy (for example
  a network error raised by the opaque engine during stream iteration).
- The opaque LightRAG engine is a function parameter; engine construction
  success is the `engineOk` flag of the state.
-/

namespace LightGraphRag

/-- The exception taxonomy of `src/core/exceptions.py`, plus `other` for
any exception not in the taxonomy (e.g. raised by the opaque engine). -/
inductive ServiceError where
  | groupNotFound
  | groupAlreadyExists
  | documentNotFound
  | conversationNotFound
  | lightragNotReady
  | other
deriving DecidableEq, Repr

/-- A row of the `groups` table (`src/core/database.py`). -/
structure GroupRow where
  id : String
  name : String
  description : String
  createdAt : Nat
  updatedAt : Nat
deriving DecidableEq, Repr

/-- A row of the `conversations` table. -/
structure ConvRow where
  id : String
  groupId : String
  title : String
  createdAt : Nat
  updatedAt : Nat
deriving DecidableEq, Repr

/-- A row of the `messages` table; `id` is the fresh-id counter value at
insertion time (standing for the generated uuid). -/
structure MsgRow where
  id : Nat
  conversationId : String
  role : String
  content : String
  queryMode : Option String
  createdAt : Nat
deriving DecidableEq, Repr

/-- The whole mutable world of the backend: the metadata store, the
per-group storage directories (a directory is named by its group id), the
process-wide LightRAG instance cache of `lightrag_service.py` (instances
named by a counter), a counter of engine constructions performed (the
"construction counter in a test double" of the spec), the health of the
model backend, and the logical clock. -/
structure St where
  groups : List GroupRow
  dirs : List String
  cache : List (String × Nat)
  nextInstance : Nat
  constructions : Nat
  engineOk : Bool
  conversations : List ConvRow
  messages : List MsgRow
  nextMsgId : Nat
  now : Nat
deriving DecidableEq, Repr

/-! ## Tenant lifecycle manager (`group_service.py`) -/

/-- `group_service.create_group`: check the name for an exact-match
collision, insert the row, `mkdir(parents=True, exist_ok=True)` the
storage root.  `groupId` stands for the generated uuid. -/
def create_group (groupId name description : String) (st : St) :
    Except ServiceError GroupRow × St :=
  if st.groups.any (fun g => g.name = name) then
    (.error .groupAlreadyExists, st)
  else
    let row : GroupRow := ⟨groupId, name, description, st.now, st.now⟩
    (.ok row,
      { st with
        groups := st.groups ++ [row]
        dirs := if st.dirs.contains groupId then st.dirs else st.dirs ++ [groupId]
        now := st.now + 1 })

/-- `group_service.get_group`: select one row or raise. -/
def get_group (groupId : String) (st : St) : Except ServiceError GroupRow :=
  match st.groups.find? (fun g => g.id = groupId) with
  | some g => .ok g
  | none => .error .groupNotFound

/-- The `GroupUpdate` request model: optional partial fields. -/
structure GroupUpdate where
  name : Option String
  description : Option String
deriving DecidableEq, Repr

/-- `group_service.update_group`: fetch the row, fill omitted fields from
it, check a changed name against all *other* groups, then update name,
description and `updated_at` in place. -/
def update_group (groupId : String) (data : GroupUpdate) (st : St) :
    Except ServiceError GroupRow × St :=
  match st.groups.find? (fun g => g.id = groupId) with
  | none => (.error .groupNotFound, st)
  | some existing =>
    let newName := data.name.getD existing.name
    let newDescription := data.description.getD existing.description
    if data.name.any (fun n =>
        n != existing.name &&
        st.groups.any (fun g => g.name = n && g.id != groupId)) then
      (.error .groupAlreadyExists, st)
    else
      let row : GroupRow :=
        { existing with name := newName, description := newDescription, updatedAt := st.now }
      (.ok row,
        { st with
          groups := st.groups.map (fun g => if g.id = groupId then row else g)
          now := st.now + 1 })

/-- `group_service.delete_group`: check existence, delete the row (FK
cascade removes the group's documents, conversations and their messages),
then `shutil.rmtree` the storage root.  Faithful to the source, the
LightRAG instance cache is NOT touched. -/
def delete_group (groupId : String) (st : St) : Except ServiceError Unit × St :=
  if st.groups.any (fun g => g.id = groupId) then
    let remainingConvs := st.conversations.filter (fun c => c.groupId != groupId)
    (.ok (),
      { st with
        groups := st.groups.filter (fun g => g.id != groupId)
        conversations := remainingConvs
        messages := st.messages.filter
          (fun m => remainingConvs.any (fun c => c.id = m.conversationId))
        dirs := st.dirs.filter (fun d => d != groupId) })
  else (.error .groupNotFound, st)

/-! ## Engine instance registry (`lightrag_service.py`), sequential view -/

/-- `lightrag_service.get_instance`, as executed without interleaving:
return the cached instance if present; otherwise require the storage root
to exist, construct and initialize a fresh engine (counting the
construction), cache it and return it.  A construction/initialization
failure (modelled by `engineOk = false`) raises `lightragNotReady` and
does not poison the cache. -/
def get_instance (groupId : String) (st : St) : Except ServiceError Nat × St :=
  match st.cache.lookup groupId with
  | some inst => (.ok inst, st)
  | none =>
    if st.dirs.contains groupId then
      if st.engineOk then
        (.ok st.nextInstance,
          { st with
            cache := (groupId, st.nextInstance) :: st.cache
            nextInstance := st.nextInstance + 1
            constructions := st.constructions + 1 })
      else
        (.error .lightragNotReady, { st with constructions := st.constructions + 1 })
    else (.error .groupNotFound, st)

/-! ## Engine instance registry, interleaved view

`get_instance` is a coroutine: its body suspends at
`await rag.initialize_storages()`, which sits between the cache-membership
check and the cache write (`_instances[group_id] = rag`).  A resolve call
is therefore two atomic segments separated by one suspension point. -/

instance {ε α : Type} [DecidableEq ε] [DecidableEq α] : DecidableEq (Except ε α) :=
  fun x y =>
    match x, y with
    | .ok a, .ok b =>
      if h : a = b then isTrue (by rw [h]) else isFalse (by simp [h])
    | .error a, .error b =>
      if h : a = b then isTrue (by rw [h]) else isFalse (by simp [h])
    | .ok _, .error _ => isFalse (by simp)
    | .error _, .ok _ => isFalse (by simp)

/-- The program counter of one in-flight `get_instance` call. -/
inductive ResolveRun where
  | ready
  | awaitingInit (inst : Nat)
  | finished (r : Except ServiceError Nat)
deriving DecidableEq, Repr

/-- One atomic segment of `get_instance group_id`.  From `ready`: the cache
check, the directory check, the synchronous `LightRAG(...)` construction
and the start of `initialize_storages` (one construction counted, the
cache not yet written).  From `awaitingInit`: initialization returns and
the instance is written into the cache (overwriting any entry another
caller wrote meanwhile), or fails without caching. -/
def resolveStep (groupId : String) (ph : ResolveRun) (st : St) : ResolveRun × St :=
  match ph with
  | .ready =>
    match st.cache.lookup groupId with
    | some inst => (.finished (.ok inst), st)
    | none =>
      if st.dirs.contains groupId then
        (.awaitingInit st.nextInstance,
          { st with
            nextInstance := st.nextInstance + 1
            constructions := st.constructions + 1 })
      else (.finished (.error .groupNotFound), st)
  | .awaitingInit inst =>
    if st.engineOk then
      (.finished (.ok inst), { st with cache := (groupId, inst) :: st.cache })
    else (.finished (.error .lightragNotReady), st)
  | .finished r => (.finished r, st)

/-- Run two concurrent `get_instance` calls for the same group under an
explicit interleaving schedule: `true` steps the first call, `false` the
second. -/
def runTwo (groupId : String) : List Bool → ResolveRun × ResolveRun × St →
    ResolveRun × ResolveRun × St
  | [], s => s
  | pick :: rest, (a, b, st) =>
    if pick then
      let (a2, st2) := resolveStep groupId a st
      runTwo groupId rest (a2, b, st2)
    else
      let (b2, st2) := resolveStep groupId b st
      runTwo groupId rest (a, b2, st2)

/-! ## Conversation orchestrator (`conversation_service.py`) -/

/-- `conversation_service._get_history_for_lightrag`: the conversation's
messages `ORDER BY created_at DESC LIMIT max_turns * 2`, reversed back to
oldest-to-newest and projected to role/content pairs.  `created_at` is
strictly monotone in insertion order (see the module conventions), so the
descending sort is list reversal. -/
def get_history_for_lightrag (conversationId : String) (maxTurns : Nat) (st : St) :
    List (String × String) :=
  let msgs := st.messages.filter (fun m => m.conversationId = conversationId)
  ((msgs.reverse.take (maxTurns * 2)).reverse).map (fun m => (m.role, m.content))

/-- The trace of one `conversation_service.chat` call: its return value or
error, the query text and history actually handed to the engine (`none`
when the engine was never invoked), and the post-state. -/
structure ChatTrace where
  result : Except ServiceError (MsgRow × MsgRow)
  queryPassed : Option String
  historyPassed : Option (List (String × String))
  state : St
deriving Repr

/-- `conversation_service.chat`: verify group and conversation, insert and
commit the user message, assemble history, resolve the engine instance,
invoke `rag.aquery(message, QueryParam(mode, conversation_history))`, then
in one transaction insert the assistant message (tagged with the mode) and
bump the conversation's `updated_at`.  The engine is an opaque function of
the query and the history. -/
def chat (groupId conversationId message mode : String)
    (engine : String → List (String × String) → Except ServiceError String)
    (st : St) : ChatTrace :=
  if st.groups.any (fun g => g.id = groupId) then
    if st.conversations.any (fun c => c.id = conversationId && c.groupId = groupId) then
      let uRow : MsgRow := ⟨st.nextMsgId, conversationId, "user", message, none, st.now⟩
      let st1 : St :=
        { st with
          messages := st.messages ++ [uRow]
          nextMsgId := st.nextMsgId + 1
          now := st.now + 1 }
      let history := get_history_for_lightrag conversationId 5 st1
      match get_instance groupId st1 with
      | (.error e, st2) => ⟨.error e, none, none, st2⟩
      | (.ok _, st2) =>
        match engine message history with
        | .error e => ⟨.error e, some message, some history, st2⟩
        | .ok response =>
          let aRow : MsgRow :=
            ⟨st2.nextMsgId, conversationId, "assistant", response, some mode, st2.now⟩
          let st3 : St :=
            { st2 with
              messages := st2.messages ++ [aRow]
              conversations := st2.conversations.map
                (fun c => if c.id = conversationId then { c with updatedAt := st2.now } else c)
              nextMsgId := st2.nextMsgId + 1
              now := st2.now + 1 }
          ⟨.ok (uRow, aRow), some message, some history, st3⟩
    else ⟨.error .conversationNotFound, none, none, st⟩
  else ⟨.error .groupNotFound, none, none, st⟩

/-- The observable behaviour of the opaque engine's chunk stream: it
either yields its chunks and exhausts, or yields them and then raises. -/
inductive StreamBehavior where
  | yields (chunks : List String)
  | failsAfter (chunks : List String) (e : ServiceError)
deriving DecidableEq, Repr

/-- The chunks a stream produces before exhausting or raising. -/
def StreamBehavior.chunks : StreamBehavior → List String
  | .yields cs => cs
  | .failsAfter cs _ => cs

/-- How one `chat_stream` generator run ended: the consumer drained it
(the code after the loop ran), the consumer stopped pulling early (client
disconnect — the generator is closed and never resumes), or an exception
reached the generator. -/
inductive StreamEnd where
  | completed
  | canceled
  | errored (e : ServiceError)
deriving DecidableEq, Repr

/-- The trace of one `conversation_service.chat_stream` call. -/
structure ChatStreamTrace where
  yielded : List String
  ending : StreamEnd
  queryPassed : Option String
  historyPassed : Option (List (String × String))
  state : St
deriving Repr

/-- `conversation_service.chat_stream`: same prologue as `chat`, then the
engine stream is iterated, each chunk forwarded and accumulated, and only
after the `async for` exhausts the producer does the epilogue insert the
concatenated assistant message and bump the conversation timestamp.
`pulls = some k` models the consumer disconnecting after pulling `k`
chunks: with `k ≤ chunks.length` the generator is abandoned inside the
loop, so the epilogue never runs and any error beyond the consumed chunks
is never reached; a producer error propagates out of the loop and skips
the epilogue likewise. -/
def chat_stream (groupId conversationId message mode : String)
    (engine : String → List (String × String) → StreamBehavior)
    (pulls : Option Nat) (st : St) : ChatStreamTrace :=
  if st.groups.any (fun g => g.id = groupId) then
    if st.conversations.any (fun c => c.id = conversationId && c.groupId = groupId) then
      let uRow : MsgRow := ⟨st.nextMsgId, conversationId, "user", message, none, st.now⟩
      let st1 : St :=
        { st with
          messages := st.messages ++ [uRow]
          nextMsgId := st.nextMsgId + 1
          now := st.now + 1 }
      let history := get_history_for_lightrag conversationId 5 st1
      match get_instance groupId st1 with
      | (.error e, st2) => ⟨[], .errored e, none, none, st2⟩
      | (.ok _, st2) =>
        match engine message history with
        | .yields chunks =>
          if pulls.any (fun k => k ≤ chunks.length) then
            ⟨chunks.take (pulls.getD 0), .canceled, some message, some history, st2⟩
          else
            let aRow : MsgRow :=
              ⟨st2.nextMsgId, conversationId, "assistant", String.join chunks, some mode, st2.now⟩
            let st3 : St :=
              { st2 with
                messages := st2.messages ++ [aRow]
                conversations := st2.conversations.map
                  (fun c => if c.id = conversationId then { c with updatedAt := st2.now } else c)
                nextMsgId := st2.nextMsgId + 1
                now := st2.now + 1 }
            ⟨chunks, .completed, some message, some history, st3⟩
        | .failsAfter chunks e =>
          if pulls.any (fun k => k ≤ chunks.length) then
            ⟨chunks.take (pulls.getD 0), .canceled, some message, some history, st2⟩
          else
            ⟨chunks, .errored e, some message, some history, st2⟩
    else ⟨[], .errored .conversationNotFound, none, none, st⟩
  else ⟨[], .errored .groupNotFound, none, none, st⟩

/-! ## Retrieval orchestrator (`query_service.py`) and routes
(`routes/query.py`, `routes/conversations.py`) -/

/-- The `QueryRequest` model of `src/models/query.py`: query text, mode,
and the `stream` flag ("Enable SSE streaming response"). -/
structure QueryRequestModel where
  query : String
  mode : String
  stream : Bool
deriving DecidableEq, Repr

/-- The `QueryResponse` model. -/
structure QueryResponseModel where
  query : String
  mode : String
  response : String
  groupId : String
deriving DecidableEq, Repr

/-- `query_service.query_group`: verify the group row exists, then
`lightrag_service.query` (resolve the instance and run the blocking
engine query), and wrap the answer. -/
def query_group_svc (groupId queryText mode : String)
    (engine : String → String → Except ServiceError String)
    (st : St) : Except ServiceError QueryResponseModel × St :=
  if st.groups.any (fun g => g.id = groupId) then
    match get_instance groupId st with
    | (.error e, st2) => (.error e, st2)
    | (.ok _, st2) =>
      match engine queryText mode with
      | .error e => (.error e, st2)
      | .ok response => (.ok ⟨queryText, mode, response, groupId⟩, st2)
  else (.error .groupNotFound, st)

/-- The structured payload of a terminal `done` SSE event
(`json.dumps` of query/conversation metadata in the source). -/
structure DonePayload where
  query : Option String
  conversationId : Option String
  mode : String
  groupId : String
deriving DecidableEq, Repr

/-- One Server-Sent Event as emitted by the routes. -/
inductive SSEEvent where
  | chunk (data : String)
  | done (payload : DonePayload)
  | error (detail : String)
deriving DecidableEq, Repr

def SSEEvent.isChunk : SSEEvent → Bool
  | .chunk _ => true
  | _ => false

def SSEEvent.isDone : SSEEvent → Bool
  | .done _ => true
  | _ => false

def SSEEvent.isError : SSEEvent → Bool
  | .error _ => true
  | _ => false

def SSEEvent.isTerminal (e : SSEEvent) : Bool := e.isDone || e.isError

/-- The `str(e)` detail attached to a caught exception. -/
def detailOf : ServiceError → String
  | .groupNotFound => "Group not found"
  | .groupAlreadyExists => "Group already exists"
  | .documentNotFound => "Document not found"
  | .conversationNotFound => "Conversation not found"
  | .lightragNotReady => "LightRAG initialization failed"
  | .other => "unexpected error"

/-- The exception classes caught by `routes/query.py`'s `event_generator`:
`GroupNotFoundError` and `LightRAGNotReadyError`. -/
def caughtByQueryRoute : ServiceError → Bool
  | .groupNotFound => true
  | .lightragNotReady => true
  | _ => false

/-- The exception classes caught by `routes/conversations.py`'s
`event_generator`: additionally `ConversationNotFoundError`. -/
def caughtByChatRoute : ServiceError → Bool
  | .groupNotFound => true
  | .conversationNotFound => true
  | .lightragNotReady => true
  | _ => false

/-- The `event_generator` shared shape of both streaming routes: forward
each source chunk as a `chunk` event, then a `done` event; a source
exception of a caught class yields an `error` event instead; any other
exception propagates out of the generator, aborting the SSE stream after
the chunks already sent (the returned `Bool` is `true` when the exception
propagated). -/
def sseOfSource (caught : ServiceError → Bool) (payload : DonePayload)
    (src : StreamBehavior) : List SSEEvent × Bool :=
  match src with
  | .yields cs => (cs.map SSEEvent.chunk ++ [SSEEvent.done payload], false)
  | .failsAfter cs e =>
    if caught e then (cs.map SSEEvent.chunk ++ [SSEEvent.error (detailOf e)], false)
    else (cs.map SSEEvent.chunk, true)

/-- `query_service.query_group_stream` as a chunk source: the group check
and instance resolution raise before the first chunk; afterwards the
opaque engine stream's behaviour is passed through. -/
def queryStreamSource (groupId queryText mode : String)
    (engine : String → String → StreamBehavior) (st : St) : StreamBehavior × St :=
  if st.groups.any (fun g => g.id = groupId) then
    match get_instance groupId st with
    | (.error e, st2) => (.failsAfter [] e, st2)
    | (.ok _, st2) => (engine queryText mode, st2)
  else (.failsAfter [] .groupNotFound, st)

/-- A route handler's response: either a buffered JSON body (or an HTTP
error translated from a service exception) or an SSE event stream. -/
inductive RouteResult where
  | buffered (r : Except ServiceError QueryResponseModel)
  | sse (events : List SSEEvent)
deriving DecidableEq, Repr

def RouteResult.isSSE : RouteResult → Bool
  | .sse _ => true
  | _ => false

/-- `routes/query.py::query_group` (`POST /groups/{id}/query`): the
handler calls `query_service.query_group(group_id, data.query, data.mode)`
and maps exceptions to HTTP statuses.  Faithful to the source, the
handler never inspects `data.stream`. -/
def query_group_route (groupId : String) (data : QueryRequestModel)
    (engine : String → String → Except ServiceError String)
    (st : St) : RouteResult × St :=
  let r := query_group_svc groupId data.query data.mode engine st
  (.buffered r.1, r.2)

/-- `routes/query.py::query_group_stream` (`POST /groups/{id}/query/stream`):
wrap the service chunk source in the SSE event generator.  The second
component of the event list pair records whether an uncaught exception
aborted the stream. -/
def query_group_stream_route (groupId : String) (data : QueryRequestModel)
    (engine : String → String → StreamBehavior)
    (st : St) : (List SSEEvent × Bool) × St :=
  let r := queryStreamSource groupId data.query data.mode engine st
  (sseOfSource caughtByQueryRoute ⟨some data.query, none, data.mode, groupId⟩ r.1, r.2)

/-- `conversation_service.chat_stream` viewed as the chunk source of
`routes/conversations.py::_stream_chat` (the SSE consumer pulls to
exhaustion, so `pulls = none`). -/
def chatStreamSource (groupId conversationId message mode : String)
    (engine : String → List (String × String) → StreamBehavior)
    (st : St) : StreamBehavior × St :=
  let t := chat_stream groupId conversationId message mode engine none st
  match t.ending with
  | .errored e => (.failsAfter t.yielded e, t.state)
  | _ => (.yields t.yielded, t.state)

/-- `routes/conversations.py::_stream_chat`: the chat SSE event stream. -/
def chat_stream_route (groupId conversationId message mode : String)
    (engine : String → List (String × String) → StreamBehavior)
    (st : St) : (List SSEEvent × Bool) × St :=
  let r := chatStreamSource groupId conversationId message mode engine st
  (sseOfSource caughtByChatRoute ⟨none, some conversationId, mode, groupId⟩ r.1, r.2)

/-! ## Shared auxiliary definitions for the statements -/

/-- A sample tenant row used by concrete scenarios. -/
def g1Row : GroupRow := ⟨"g1", "Acme", "", 0, 0⟩

/-- A sample conversation row under tenant `g1`. -/
def c1Row : ConvRow := ⟨"c1", "g1", "New Conversation", 0, 0⟩

/-- A concrete backend state: tenant `g1` with its storage directory and
one empty conversation `c1`, a healthy model backend, nothing cached. -/
def sampleSt : St := ⟨[g1Row], ["g1"], [], 0, 0, true, [c1Row], [], 0, 1⟩

/-- A conversation's stored messages projected to role/content pairs, in
creation order. -/
def convHistory (conversationId : String) (st : St) : List (String × String) :=
  (st.messages.filter (fun m => m.conversationId = conversationId)).map
    (fun m => (m.role, m.content))

/-- The SSE framing discipline of one emitted event list: every event
before the last is a `chunk`, at most one terminal event, never both
`done` and `error`; when the generator was not aborted by an uncaught
exception there is exactly one terminal event, and when it was aborted
there is none (only chunks). -/
def wellFramed (evs : List SSEEvent) (aborted : Bool) : Prop :=
  evs.dropLast.all SSEEvent.isChunk = true
  ∧ evs.countP SSEEvent.isTerminal ≤ 1
  ∧ ¬(evs.any SSEEvent.isDone = true ∧ evs.any SSEEvent.isError = true)
  ∧ (aborted = false → evs.countP SSEEvent.isTerminal = 1)
  ∧ (aborted = true → evs.all SSEEvent.isChunk = true)

/-! ## Helper lemmas -/

theorem reverse_take_reverse_eq_drop {α : Type} (l : List α) (n : Nat) :
    (l.reverse.take n).reverse = l.drop (l.length - n) := by
  rw [List.reverse_take]
  simp

theorem get_instance_preserves (groupId : String) (st : St) :
    (get_instance groupId st).2.groups = st.groups
    ∧ (get_instance groupId st).2.conversations = st.conversations
    ∧ (get_instance groupId st).2.messages = st.messages
    ∧ (get_instance groupId st).2.nextMsgId = st.nextMsgId
    ∧ (get_instance groupId st).2.now = st.now := by
  unfold get_instance
  rcases st.cache.lookup groupId with _ | inst <;> simp
  split <;> [skip; simp]
  split <;> simp

/-! ## Claim theorems -/

/-- C8: for every tenant name, creating two tenants sequentially with the
identical name yields exactly one success and one `TenantAlreadyExists`;
the success allocates the supplied id, writes the metadata row, and
creates the storage root idempotently (present afterwards whether or not
it pre-existed). -/
theorem create_group_same_name_second_fails
    (st : St) (id1 id2 n d1 d2 : String)
    (h : st.groups.any (fun g => g.name = n) = false) :
    ∃ row st1, create_group id1 n d1 st = (.ok row, st1)
      ∧ row.id = id1 ∧ row.name = n ∧ row.description = d1
      ∧ row ∈ st1.groups
      ∧ id1 ∈ st1.dirs
      ∧ (create_group id2 n d2 st1).1 = .error .groupAlreadyExists := by
  have hrow : create_group id1 n d1 st =
      (.ok ⟨id1, n, d1, st.now, st.now⟩,
        { st with
          groups := st.groups ++ [⟨id1, n, d1, st.now, st.now⟩]
          dirs := if st.dirs.contains id1 then st.dirs else st.dirs ++ [id1]
          now := st.now + 1 }) := by
    rw [create_group, h]
    simp
  refine ⟨_, _, hrow, rfl, rfl, rfl, by simp, ?_, ?_⟩
  · by_cases hc : st.dirs.contains id1 = true
    · simp only [hc, if_true]
      exact List.mem_of_elem_eq_true hc
    · simp only [hc, if_false, Bool.false_eq_true]
      simp
  · rw [create_group]
    simp [List.any_append]

theorem create_group_same_name_second_fails_witness :
    sampleSt.groups.any (fun g => g.name = "Beta") = false
    ∧ ∃ row st1, create_group "a1" "Beta" "" sampleSt = (.ok row, st1)
      ∧ row.id = "a1" ∧ row.name = "Beta" ∧ row.description = ""
      ∧ row ∈ st1.groups
      ∧ "a1" ∈ st1.dirs
      ∧ (create_group "a2" "Beta" "x" st1).1 = .error .groupAlreadyExists :=
  ⟨by decide,
    create_group_same_name_second_fails sampleSt "a1" "a2" "Beta" "" "x" (by decide)⟩

/-- C9: for every successful partial update, omitted fields keep their
prior values, `updated_at` is refreshed to the current clock, renaming a
tenant to its own current name succeeds (the collision check only looks
at *other* tenants), and every other tenant's row is untouched. -/
theorem update_group_partial_update_semantics
    (st : St) (groupId : String) (data : GroupUpdate) (ex : GroupRow)
    (hex : st.groups.find? (fun g => g.id = groupId) = some ex) :
    (update_group groupId ⟨some ex.name, data.description⟩ st).1.isOk = true
    ∧ ∀ row st2, update_group groupId data st = (.ok row, st2) →
        (data.name = none → row.name = ex.name)
        ∧ (data.description = none → row.description = ex.description)
        ∧ (∀ n, data.name = some n → row.name = n)
        ∧ (∀ d, data.description = some d → row.description = d)
        ∧ row.updatedAt = st.now
        ∧ row.id = ex.id
        ∧ ∀ g ∈ st.groups, g.id ≠ groupId → g ∈ st2.groups := by
  constructor
  · rw [update_group, hex]
    simp [Except.isOk, Except.toBool, Option.any]
  · intro row st2 hok
    rw [update_group, hex] at hok
    dsimp only at hok
    by_cases hdup : (Option.any (fun n =>
        n != ex.name && st.groups.any (fun g => g.name = n && g.id != groupId)) data.name) = true
    · rw [if_pos hdup] at hok
      simp at hok
    · rw [if_neg hdup] at hok
      simp only [Prod.mk.injEq, Except.ok.injEq] at hok
      obtain ⟨hrow, hst⟩ := hok
      refine ⟨?_, ?_, ?_, ?_, ?_, ?_, ?_⟩
      · intro hn; rw [← hrow]; simp [hn]
      · intro hd; rw [← hrow]; simp [hd]
      · intro n hn; rw [← hrow]; simp [hn]
      · intro d hd; rw [← hrow]; simp [hd]
      · rw [← hrow]
      · rw [← hrow]
      · intro g hg hne
        rw [← hst]
        exact List.mem_map.mpr ⟨g, hg, by simp [hne]⟩

theorem update_group_partial_update_semantics_witness :
    sampleSt.groups.find? (fun g => g.id = "g1") = some g1Row
    ∧ (update_group "g1" ⟨some g1Row.name, none⟩ sampleSt).1.isOk = true :=
  ⟨by decide,
    (update_group_partial_update_semantics sampleSt "g1" ⟨some g1Row.name, none⟩ g1Row
      (by decide)).1⟩

/-- C1: `get_instance` has no per-tenant lock, and it suspends (at
`await rag.initialize_storages()`) between the cache-membership check and
the cache write.  Under the interleaving A-check, B-check, A-finish,
B-finish of two concurrent resolves of the uncached tenant `g1`, two
engine constructions are performed, the callers obtain distinct instances
(the second caller does not observe or reuse the first caller's in-flight
result), and the second construction overwrites the first in the cache —
refuting the claimed at-most-one-construction invariant. -/
theorem concurrent_resolve_performs_two_constructions :
    (runTwo "g1" [true, false, true, false]
        (.ready, .ready, sampleSt)).2.2.constructions = 2
    ∧ (runTwo "g1" [true, false, true, false]
        (.ready, .ready, sampleSt)).1 = .finished (.ok 0)
    ∧ (runTwo "g1" [true, false, true, false]
        (.ready, .ready, sampleSt)).2.1 = .finished (.ok 1)
    ∧ (runTwo "g1" [true, false, true, false]
        (.ready, .ready, sampleSt)).2.2.cache.lookup "g1" = some 1 := by
  decide

/-- C2: `delete_group` removes the metadata row and the storage root
directory, but never evicts the cached engine instance
(`lightrag_service.remove_instance` is not called on the delete path).
After resolving tenant `g1` (which caches instance 0) and then deleting
it, `get_group` does raise `TenantNotFound`, but a subsequent resolve
returns the stale cached instance instead of raising — refuting both the
eviction and the every-read-raises parts of the claim. -/
theorem delete_group_leaves_cached_instance :
    (delete_group "g1" (get_instance "g1" sampleSt).2).1 = .ok ()
    ∧ (delete_group "g1" (get_instance "g1" sampleSt).2).2.groups = []
    ∧ (delete_group "g1" (get_instance "g1" sampleSt).2).2.dirs = []
    ∧ get_group "g1" (delete_group "g1" (get_instance "g1" sampleSt).2).2
        = .error .groupNotFound
    ∧ (delete_group "g1" (get_instance "g1" sampleSt).2).2.cache = [("g1", 0)]
    ∧ (get_instance "g1" (delete_group "g1" (get_instance "g1" sampleSt).2).2).1
        = .ok 0 := by
  decide

/-- C7: the `POST /groups/{id}/query` handler never inspects the request
body's `stream` flag: with `stream = true` it still returns the buffered
synchronous `QueryResponse`, not an SSE stream (the separate
`POST /groups/{id}/query/stream` endpoint is the one that streams). -/
theorem query_route_ignores_stream_flag :
    (query_group_route "g1" ⟨"hi", "mix", true⟩ (fun _ _ => .ok "ans") sampleSt).1
      = .buffered (.ok ⟨"hi", "mix", "ans", "g1"⟩)
    ∧ ((query_group_route "g1" ⟨"hi", "mix", true⟩
        (fun _ _ => .ok "ans") sampleSt).1.isSSE = false)
    ∧ (query_group_stream_route "g1" ⟨"hi", "mix", true⟩
        (fun _ _ => .yields ["ans"]) sampleSt).1.1
      = [SSEEvent.chunk "ans", SSEEvent.done ⟨some "hi", none, "mix", "g1"⟩] := by
  decide

/-- C5 counterexample: when the underlying chunk sequence raises an
exception outside the route's caught taxonomy (here `ServiceError.other`,
e.g. a network failure inside the opaque engine's stream) after one
chunk, the query SSE endpoint emits that chunk and then NO terminal event
at all — the exception propagates out of the generator — refuting
"exactly one terminal event ... including when the underlying chunk
sequence raises". -/
theorem sse_stream_without_terminal_event_on_uncaught_error :
    (query_group_stream_route "g1" ⟨"hi", "mix", false⟩
        (fun _ _ => .failsAfter ["a"] .other) sampleSt).1.1
      = [SSEEvent.chunk "a"]
    ∧ (query_group_stream_route "g1" ⟨"hi", "mix", false⟩
        (fun _ _ => .failsAfter ["a"] .other) sampleSt).1.1.countP SSEEvent.isTerminal
      = 0
    ∧ (query_group_stream_route "g1" ⟨"hi", "mix", false⟩
        (fun _ _ => .failsAfter ["a"] .other) sampleSt).1.2 = true := by
  decide

theorem chunk_map_all_isChunk (cs : List String) :
    (cs.map SSEEvent.chunk).all SSEEvent.isChunk = true := by
  induction cs with
  | nil => rfl
  | cons a t ih => simp [SSEEvent.isChunk, ih]

theorem chunk_map_countP_terminal (cs : List String) :
    (cs.map SSEEvent.chunk).countP SSEEvent.isTerminal = 0 := by
  induction cs with
  | nil => rfl
  | cons a t ih =>
    simp [List.countP_cons, ih, SSEEvent.isTerminal, SSEEvent.isDone, SSEEvent.isError]

theorem chunk_map_any_isDone (cs : List String) :
    (cs.map SSEEvent.chunk).any SSEEvent.isDone = false := by
  induction cs with
  | nil => rfl
  | cons a t ih => simp [SSEEvent.isDone, ih]

theorem chunk_map_any_isError (cs : List String) :
    (cs.map SSEEvent.chunk).any SSEEvent.isError = false := by
  induction cs with
  | nil => rfl
  | cons a t ih => simp [SSEEvent.isError, ih]

theorem chunk_map_filter_isChunk (cs : List String) :
    (cs.map SSEEvent.chunk).filter SSEEvent.isChunk = cs.map SSEEvent.chunk := by
  induction cs with
  | nil => rfl
  | cons a t ih => simp [List.filter_cons, SSEEvent.isChunk, ih]

theorem sseOfSource_framing (caught : ServiceError → Bool) (payload : DonePayload)
    (src : StreamBehavior) :
    wellFramed (sseOfSource caught payload src).1 (sseOfSource caught payload src).2
    ∧ (sseOfSource caught payload src).1.filter SSEEvent.isChunk
        = src.chunks.map SSEEvent.chunk := by
  cases src with
  | yields cs =>
    refine ⟨⟨?_, ?_, ?_, ?_, ?_⟩, ?_⟩
    · rw [sseOfSource]
      simp only [List.dropLast_concat]
      exact chunk_map_all_isChunk cs
    · rw [sseOfSource]
      simp [List.countP_append, chunk_map_countP_terminal,
        SSEEvent.isTerminal, SSEEvent.isDone, SSEEvent.isError, List.countP_cons]
    · rw [sseOfSource]
      simp [List.any_append, chunk_map_any_isError, SSEEvent.isError]
    · intro _
      rw [sseOfSource]
      simp [List.countP_append, chunk_map_countP_terminal,
        SSEEvent.isTerminal, SSEEvent.isDone, SSEEvent.isError, List.countP_cons]
    · intro hab
      rw [sseOfSource] at hab
      simp at hab
    · rw [sseOfSource]
      simp only [StreamBehavior.chunks, List.filter_append, chunk_map_filter_isChunk]
      simp [List.filter_cons, SSEEvent.isChunk]
  | failsAfter cs e =>
    by_cases hc : caught e = true
    · refine ⟨⟨?_, ?_, ?_, ?_, ?_⟩, ?_⟩
      · rw [sseOfSource, if_pos hc]
        simp only [List.dropLast_concat]
        exact chunk_map_all_isChunk cs
      · rw [sseOfSource, if_pos hc]
        simp [List.countP_append, chunk_map_countP_terminal,
          SSEEvent.isTerminal, SSEEvent.isDone, SSEEvent.isError, List.countP_cons]
      · rw [sseOfSource, if_pos hc]
        simp [List.any_append, chunk_map_any_isDone, SSEEvent.isDone]
      · intro _
        rw [sseOfSource, if_pos hc]
        simp [List.countP_append, chunk_map_countP_terminal,
          SSEEvent.isTerminal, SSEEvent.isDone, SSEEvent.isError, List.countP_cons]
      · intro hab
        rw [sseOfSource, if_pos hc] at hab
        simp at hab
      · rw [sseOfSource, if_pos hc]
        simp only [StreamBehavior.chunks, List.filter_append, chunk_map_filter_isChunk]
        simp [List.filter_cons, SSEEvent.isChunk]
    · refine ⟨⟨?_, ?_, ?_, ?_, ?_⟩, ?_⟩
      · rw [sseOfSource, if_neg hc]
        rw [← List.map_dropLast]
        exact chunk_map_all_isChunk cs.dropLast
      · rw [sseOfSource, if_neg hc]
        simp only [chunk_map_countP_terminal]
        exact Nat.zero_le 1
      · rw [sseOfSource, if_neg hc]
        simp [chunk_map_any_isDone]
      · intro hab
        rw [sseOfSource, if_neg hc] at hab
        simp at hab
      · intro _
        rw [sseOfSource, if_neg hc]
        exact chunk_map_all_isChunk cs
      · rw [sseOfSource, if_neg hc]
        exact chunk_map_filter_isChunk cs

/-- C5 amended: for every stream the two SSE endpoints produce, every
event before the last is a `chunk` (so no chunk ever follows a terminal
event), at most one terminal event is emitted and never both `done` and
`error`; exactly one terminal event is emitted whenever the stream
completes or raises one of the route's caught domain errors, while an
uncaught exception aborts the stream after its chunks with NO terminal
event; and the chunk events are exactly the source's fragments in
production order. -/
theorem sse_event_framing :
    (∀ (caught : ServiceError → Bool) (payload : DonePayload) (src : StreamBehavior),
      wellFramed (sseOfSource caught payload src).1 (sseOfSource caught payload src).2
      ∧ (sseOfSource caught payload src).1.filter SSEEvent.isChunk
          = src.chunks.map SSEEvent.chunk)
    ∧ (∀ (groupId : String) (data : QueryRequestModel)
        (engine : String → String → StreamBehavior) (st : St),
      wellFramed (query_group_stream_route groupId data engine st).1.1
        (query_group_stream_route groupId data engine st).1.2)
    ∧ (∀ (groupId conversationId message mode : String)
        (engine : String → List (String × String) → StreamBehavior) (st : St),
      wellFramed (chat_stream_route groupId conversationId message mode engine st).1.1
        (chat_stream_route groupId conversationId message mode engine st).1.2) :=
  ⟨sseOfSource_framing,
    fun groupId data engine st => (sseOfSource_framing _ _ _).1,
    fun groupId conversationId message mode engine st => (sseOfSource_framing _ _ _).1⟩

theorem sse_event_framing_witness :
    (query_group_stream_route "g1" ⟨"hi", "mix", false⟩
        (fun _ _ => StreamBehavior.yields ["a"]) sampleSt).1.1.countP SSEEvent.isTerminal
      = 1 :=
  (sse_event_framing.2.1 "g1" ⟨"hi", "mix", false⟩
      (fun _ _ => StreamBehavior.yields ["a"]) sampleSt).2.2.2.1 (by decide)

theorem get_instance_ok_of_dir (groupId : String) (st : St)
    (hdir : st.dirs.contains groupId = true) (hek : st.engineOk = true) :
    ∃ inst, (get_instance groupId st).1 = .ok inst := by
  unfold get_instance
  cases hl : st.cache.lookup groupId with
  | some inst => simp only [hl]; exact ⟨inst, rfl⟩
  | none =>
    simp only [hl]
    rw [if_pos hdir, if_pos hek]
    exact ⟨st.nextInstance, rfl⟩

theorem get_history_eq_lastN (conversationId : String) (st : St) :
    get_history_for_lightrag conversationId 5 st
      = (convHistory conversationId st).drop ((convHistory conversationId st).length - 10) := by
  unfold get_history_for_lightrag convHistory
  dsimp only
  rw [reverse_take_reverse_eq_drop, ← List.map_drop, List.length_map]

theorem convHistory_insert_user (conversationId message : String) (st : St) :
    convHistory conversationId
      { st with
        messages := st.messages
          ++ [⟨st.nextMsgId, conversationId, "user", message, none, st.now⟩]
        nextMsgId := st.nextMsgId + 1
        now := st.now + 1 }
      = convHistory conversationId st ++ [("user", message)] := by
  unfold convHistory
  simp [List.filter_append]

theorem chat_query_history_passed (st : St) (gid cid message mode : String)
    (engine : String → List (String × String) → Except ServiceError String)
    (engineS : String → List (String × String) → StreamBehavior) (pulls : Option Nat)
    (hg : st.groups.any (fun g => g.id = gid) = true)
    (hc : st.conversations.any (fun c => c.id = cid && c.groupId = gid) = true)
    (hdir : st.dirs.contains gid = true)
    (hek : st.engineOk = true) :
    ((chat gid cid message mode engine st).queryPassed = some message
      ∧ (chat gid cid message mode engine st).historyPassed
          = some ((convHistory cid st ++ [("user", message)]).drop
              (((convHistory cid st).length + 1) - 10)))
    ∧ ((chat_stream gid cid message mode engineS pulls st).queryPassed = some message
      ∧ (chat_stream gid cid message mode engineS pulls st).historyPassed
          = some ((convHistory cid st ++ [("user", message)]).drop
              (((convHistory cid st).length + 1) - 10))) := by
  have hhist : get_history_for_lightrag cid 5
      { st with
        messages := st.messages ++ [⟨st.nextMsgId, cid, "user", message, none, st.now⟩]
        nextMsgId := st.nextMsgId + 1
        now := st.now + 1 }
      = (convHistory cid st ++ [("user", message)]).drop
          (((convHistory cid st).length + 1) - 10) := by
    rw [get_history_eq_lastN, convHistory_insert_user]
    simp
  obtain ⟨inst, hok⟩ := get_instance_ok_of_dir gid
    { st with
      messages := st.messages ++ [⟨st.nextMsgId, cid, "user", message, none, st.now⟩]
      nextMsgId := st.nextMsgId + 1
      now := st.now + 1 } hdir hek
  constructor
  · unfold chat
    rw [hg, hc]
    rcases hpair : get_instance gid
      { st with
        messages := st.messages ++ [⟨st.nextMsgId, cid, "user", message, none, st.now⟩]
        nextMsgId := st.nextMsgId + 1
        now := st.now + 1 } with ⟨r, st2⟩
    rw [hpair] at hok
    simp only at hok
    rw [hok] at hpair
    simp only [hpair]
    cases engine message (get_history_for_lightrag cid 5
      { st with
        messages := st.messages ++ [⟨st.nextMsgId, cid, "user", message, none, st.now⟩]
        nextMsgId := st.nextMsgId + 1
        now := st.now + 1 }) <;> simp [hhist]
  · unfold chat_stream
    rw [hg, hc]
    rcases hpair : get_instance gid
      { st with
        messages := st.messages ++ [⟨st.nextMsgId, cid, "user", message, none, st.now⟩]
        nextMsgId := st.nextMsgId + 1
        now := st.now + 1 } with ⟨r, st2⟩
    rw [hpair] at hok
    simp only at hok
    rw [hok] at hpair
    simp only [hpair]
    cases engineS message (get_history_for_lightrag cid 5
      { st with
        messages := st.messages ++ [⟨st.nextMsgId, cid, "user", message, none, st.now⟩]
        nextMsgId := st.nextMsgId + 1
        now := st.now + 1 }) <;> (repeat' split) <;> simp_all [hhist]

theorem drop_append_getLast {α : Type} (l : List α) (x : α) (k : Nat)
    (hk : k ≤ l.length) : ((l ++ [x]).drop k).getLast? = some x := by
  rw [List.drop_append_eq_append_drop, Nat.sub_eq_zero_of_le hk]
  simp

/-- C6: in both `chat` and `chat_stream`, the history handed to the engine
is the suffix of the conversation's role-tagged messages (the just-stored
user message included) of at most the most recent `10` messages — the
`max_turns = 5` default times two — ordered oldest-to-newest. -/
theorem chat_history_is_most_recent_ten (st : St) (gid cid message mode : String)
    (engine : String → List (String × String) → Except ServiceError String)
    (engineS : String → List (String × String) → StreamBehavior) (pulls : Option Nat)
    (hg : st.groups.any (fun g => g.id = gid) = true)
    (hc : st.conversations.any (fun c => c.id = cid && c.groupId = gid) = true)
    (hdir : st.dirs.contains gid = true)
    (hek : st.engineOk = true) :
    ∃ h : List (String × String),
      (chat gid cid message mode engine st).historyPassed = some h
      ∧ (chat_stream gid cid message mode engineS pulls st).historyPassed = some h
      ∧ h = (convHistory cid st ++ [("user", message)]).drop
            (((convHistory cid st).length + 1) - 10)
      ∧ h.length ≤ 10 := by
  obtain ⟨⟨_, hh⟩, _, hhs⟩ :=
    chat_query_history_passed st gid cid message mode engine engineS pulls hg hc hdir hek
  refine ⟨_, hh, hhs, rfl, ?_⟩
  rw [List.length_drop, List.length_append]
  simp
  omega

theorem chat_history_is_most_recent_ten_witness :
    ∃ h : List (String × String),
      (chat "g1" "c1" "hi" "mix" (fun _ _ => .ok "a") sampleSt).historyPassed = some h
      ∧ (chat_stream "g1" "c1" "hi" "mix" (fun _ _ => .yields ["a"]) none
          sampleSt).historyPassed = some h
      ∧ h = (convHistory "c1" sampleSt ++ [("user", "hi")]).drop
            (((convHistory "c1" sampleSt).length + 1) - 10)
      ∧ h.length ≤ 10 :=
  chat_history_is_most_recent_ten sampleSt "g1" "c1" "hi" "mix"
    (fun _ _ => .ok "a") (fun _ _ => .yields ["a"]) none
    (by decide) (by decide) (by decide) (by decide)

/-- C10: both `chat` and `chat_stream` insert and commit the user message
before assembling history, so the history handed to the engine ends with
the current user turn — the query text reaches the engine both as the
query argument and as the last history entry. -/
theorem chat_history_ends_with_current_user_turn (st : St) (gid cid message mode : String)
    (engine : String → List (String × String) → Except ServiceError String)
    (engineS : String → List (String × String) → StreamBehavior) (pulls : Option Nat)
    (hg : st.groups.any (fun g => g.id = gid) = true)
    (hc : st.conversations.any (fun c => c.id = cid && c.groupId = gid) = true)
    (hdir : st.dirs.contains gid = true)
    (hek : st.engineOk = true) :
    ((chat gid cid message mode engine st).queryPassed = some message
      ∧ ∃ h, (chat gid cid message mode engine st).historyPassed = some h
          ∧ h.getLast? = some ("user", message))
    ∧ ((chat_stream gid cid message mode engineS pulls st).queryPassed = some message
      ∧ ∃ h, (chat_stream gid cid message mode engineS pulls st).historyPassed = some h
          ∧ h.getLast? = some ("user", message)) := by
  obtain ⟨⟨hq, hh⟩, hqs, hhs⟩ :=
    chat_query_history_passed st gid cid message mode engine engineS pulls hg hc hdir hek
  have hlast : ((convHistory cid st ++ [("user", message)]).drop
      (((convHistory cid st).length + 1) - 10)).getLast? = some ("user", message) := by
    apply drop_append_getLast
    omega
  exact ⟨⟨hq, _, hh, hlast⟩, ⟨hqs, _, hhs, hlast⟩⟩

theorem chat_history_ends_with_current_user_turn_witness :
    (chat "g1" "c1" "hi" "mix" (fun _ _ => .ok "a") sampleSt).queryPassed = some "hi"
    ∧ ∃ h, (chat "g1" "c1" "hi" "mix" (fun _ _ => .ok "a") sampleSt).historyPassed = some h
        ∧ h.getLast? = some ("user", "hi") :=
  (chat_history_ends_with_current_user_turn sampleSt "g1" "c1" "hi" "mix"
    (fun _ _ => .ok "a") (fun _ _ => .yields ["a"]) none
    (by decide) (by decide) (by decide) (by decide)).1

/-- C3: a `chat_stream` call whose chunk stream is canceled or raises
mid-flight (the producer not exhausted) persists no assistant message and
leaves every conversation row — in particular the conversation's
`updated_at` — untouched; the concatenated assistant message (tagged with
the request mode) is appended only when the stream completes normally. -/
theorem chat_stream_persists_assistant_only_on_completion
    (st : St) (gid cid message mode : String)
    (engineS : String → List (String × String) → StreamBehavior) (pulls : Option Nat) :
    ((chat_stream gid cid message mode engineS pulls st).ending ≠ .completed →
      (chat_stream gid cid message mode engineS pulls st).state.messages.filter
          (fun m => m.role = "assistant")
        = st.messages.filter (fun m => m.role = "assistant")
      ∧ (chat_stream gid cid message mode engineS pulls st).state.conversations
        = st.conversations)
    ∧ ((chat_stream gid cid message mode engineS pulls st).ending = .completed →
      ∃ a : MsgRow,
        (chat_stream gid cid message mode engineS pulls st).state.messages.filter
            (fun m => m.role = "assistant")
          = st.messages.filter (fun m => m.role = "assistant") ++ [a]
        ∧ a.role = "assistant"
        ∧ a.content = String.join (chat_stream gid cid message mode engineS pulls st).yielded
        ∧ a.queryMode = some mode) := by
  unfold chat_stream
  by_cases hG : (st.groups.any fun g => g.id = gid) = true
  · rw [if_pos hG]
    by_cases hC : (st.conversations.any fun c => c.id = cid && c.groupId = gid) = true
    · rw [if_pos hC]
      rcases hpair : get_instance gid
        { st with
          messages := st.messages ++ [⟨st.nextMsgId, cid, "user", message, none, st.now⟩]
          nextMsgId := st.nextMsgId + 1
          now := st.now + 1 } with ⟨r, st2⟩
      have hpres := get_instance_preserves gid
        { st with
          messages := st.messages ++ [⟨st.nextMsgId, cid, "user", message, none, st.now⟩]
          nextMsgId := st.nextMsgId + 1
          now := st.now + 1 }
      rw [hpair] at hpres
      simp only at hpres
      obtain ⟨hpg, hpc, hpm, hpn, hpnow⟩ := hpres
      cases r with
      | error e =>
        simp only [hpair]
        refine ⟨fun _ => ⟨?_, ?_⟩, fun hcomp => by simp at hcomp⟩
        · rw [hpm]
          simp [List.filter_append]
        · rw [hpc]
      | ok inst =>
        cases hbe : engineS message (get_history_for_lightrag cid 5
          { st with
            messages := st.messages ++ [⟨st.nextMsgId, cid, "user", message, none, st.now⟩]
            nextMsgId := st.nextMsgId + 1
            now := st.now + 1 }) with
        | yields chunks =>
          simp only [hpair, hbe]
          by_cases hp : (Option.any (fun k => k ≤ chunks.length) pulls) = true
          · rw [if_pos hp]
            refine ⟨fun _ => ⟨?_, ?_⟩, fun hcomp => by simp at hcomp⟩
            · rw [hpm]
              simp [List.filter_append]
            · rw [hpc]
          · rw [if_neg hp]
            refine ⟨fun hne => absurd rfl hne,
              fun _ => ⟨⟨st2.nextMsgId, cid, "assistant", String.join chunks, some mode,
                st2.now⟩, ?_, rfl, rfl, rfl⟩⟩
            rw [hpm]
            simp [List.filter_append]
        | failsAfter chunks e =>
          simp only [hpair, hbe]
          by_cases hp : (Option.any (fun k => k ≤ chunks.length) pulls) = true
          · rw [if_pos hp]
            refine ⟨fun _ => ⟨?_, ?_⟩, fun hcomp => by simp at hcomp⟩
            · rw [hpm]
              simp [List.filter_append]
            · rw [hpc]
          · rw [if_neg hp]
            refine ⟨fun _ => ⟨?_, ?_⟩, fun hcomp => by simp at hcomp⟩
            · rw [hpm]
              simp [List.filter_append]
            · rw [hpc]
    · rw [if_neg hC]
      exact ⟨fun _ => ⟨rfl, rfl⟩, fun hcomp => by simp at hcomp⟩
  · rw [if_neg hG]
    exact ⟨fun _ => ⟨rfl, rfl⟩, fun hcomp => by simp at hcomp⟩

theorem chat_stream_persists_assistant_only_on_completion_witness :
    (chat_stream "g1" "c1" "hi" "mix" (fun _ _ => .yields ["a", "b"]) (some 1)
        sampleSt).state.messages.filter (fun m => m.role = "assistant")
      = sampleSt.messages.filter (fun m => m.role = "assistant")
    ∧ (chat_stream "g1" "c1" "hi" "mix" (fun _ _ => .yields ["a", "b"]) (some 1)
        sampleSt).state.conversations = sampleSt.conversations :=
  (chat_stream_persists_assistant_only_on_completion sampleSt "g1" "c1" "hi" "mix"
    (fun _ _ => .yields ["a", "b"]) (some 1)).1 (by decide)

/-- C4: when a `chat` call fails after the user message was persisted
(engine resolution or the engine call raises), the user message stays in
the store, no assistant message is written, and a retry of the same chat
call appends a brand-new user message with the same content and a fresh
id — no deduplication. -/
theorem chat_failure_keeps_user_message_and_retry_appends_new
    (st : St) (gid cid message mode : String)
    (engine engine2 : String → List (String × String) → Except ServiceError String)
    (e : ServiceError)
    (hg : st.groups.any (fun g => g.id = gid) = true)
    (hc : st.conversations.any (fun c => c.id = cid && c.groupId = gid) = true)
    (hfail : (chat gid cid message mode engine st).result = .error e) :
    (chat gid cid message mode engine st).state.messages
      = st.messages ++ [⟨st.nextMsgId, cid, "user", message, none, st.now⟩]
    ∧ (chat gid cid message mode engine st).state.messages.filter
        (fun m => m.role = "assistant")
      = st.messages.filter (fun m => m.role = "assistant")
    ∧ ∃ u2 : MsgRow,
        (chat gid cid message mode engine2
            (chat gid cid message mode engine st).state).state.messages.filter
            (fun m => m.role = "user")
          = st.messages.filter (fun m => m.role = "user")
            ++ [⟨st.nextMsgId, cid, "user", message, none, st.now⟩, u2]
        ∧ u2.role = "user" ∧ u2.content = message ∧ u2.id = st.nextMsgId + 1 := by
  have retry : ∀ stx : St,
      stx.messages = st.messages ++ [⟨st.nextMsgId, cid, "user", message, none, st.now⟩] →
      stx.groups = st.groups → stx.conversations = st.conversations →
      stx.nextMsgId = st.nextMsgId + 1 →
      ∃ u2 : MsgRow,
        (chat gid cid message mode engine2 stx).state.messages.filter
            (fun m => m.role = "user")
          = st.messages.filter (fun m => m.role = "user")
            ++ [⟨st.nextMsgId, cid, "user", message, none, st.now⟩, u2]
        ∧ u2.role = "user" ∧ u2.content = message ∧ u2.id = st.nextMsgId + 1 := by
    intro stx hm hgr hcv hn
    unfold chat
    rw [if_pos (by rw [hgr]; exact hg), if_pos (by rw [hcv]; exact hc)]
    rcases hpair2 : get_instance gid
      { stx with
        messages := stx.messages ++ [⟨stx.nextMsgId, cid, "user", message, none, stx.now⟩]
        nextMsgId := stx.nextMsgId + 1
        now := stx.now + 1 } with ⟨r2, stb⟩
    have hpres2 := get_instance_preserves gid
      { stx with
        messages := stx.messages ++ [⟨stx.nextMsgId, cid, "user", message, none, stx.now⟩]
        nextMsgId := stx.nextMsgId + 1
        now := stx.now + 1 }
    rw [hpair2] at hpres2
    simp only at hpres2
    obtain ⟨hpg2, hpc2, hpm2, hpn2, hpnow2⟩ := hpres2
    cases r2 with
    | error e2 =>
      simp only [hpair2]
      refine ⟨⟨stx.nextMsgId, cid, "user", message, none, stx.now⟩, ?_, rfl, rfl, by rw [hn]⟩
      rw [hpm2, hm, hn]
      simp [List.filter_append]
    | ok inst2 =>
      simp only [hpair2]
      cases hbe2 : engine2 message (get_history_for_lightrag cid 5
        { stx with
          messages := stx.messages ++ [⟨stx.nextMsgId, cid, "user", message, none, stx.now⟩]
          nextMsgId := stx.nextMsgId + 1
          now := stx.now + 1 }) with
      | error e2 =>
        simp only [hbe2]
        refine ⟨⟨stx.nextMsgId, cid, "user", message, none, stx.now⟩, ?_, rfl, rfl, by rw [hn]⟩
        rw [hpm2, hm, hn]
        simp [List.filter_append]
      | ok resp =>
        simp only [hbe2]
        refine ⟨⟨stx.nextMsgId, cid, "user", message, none, stx.now⟩, ?_, rfl, rfl, by rw [hn]⟩
        rw [hpm2, hm, hn]
        simp [List.filter_append]
  unfold chat
  rw [if_pos hg, if_pos hc]
  rw [chat] at hfail
  rw [if_pos hg, if_pos hc] at hfail
  rcases hpair : get_instance gid
    { st with
      messages := st.messages ++ [⟨st.nextMsgId, cid, "user", message, none, st.now⟩]
      nextMsgId := st.nextMsgId + 1
      now := st.now + 1 } with ⟨r, st2⟩
  have hpres := get_instance_preserves gid
    { st with
      messages := st.messages ++ [⟨st.nextMsgId, cid, "user", message, none, st.now⟩]
      nextMsgId := st.nextMsgId + 1
      now := st.now + 1 }
  rw [hpair] at hpres
  simp only at hpres
  obtain ⟨hpg, hpc, hpm, hpn, hpnow⟩ := hpres
  cases r with
  | error e0 =>
    simp only [hpair]
    refine ⟨hpm, ?_, retry st2 hpm hpg hpc hpn⟩
    rw [hpm]
    simp [List.filter_append]
  | ok inst =>
    cases hbe : engine message (get_history_for_lightrag cid 5
      { st with
        messages := st.messages ++ [⟨st.nextMsgId, cid, "user", message, none, st.now⟩]
        nextMsgId := st.nextMsgId + 1
        now := st.now + 1 }) with
    | error e1 =>
      simp only [hpair, hbe]
      refine ⟨hpm, ?_, retry st2 hpm hpg hpc hpn⟩
      rw [hpm]
      simp [List.filter_append]
    | ok resp =>
      simp only [hpair, hbe] at hfail
      simp at hfail

theorem chat_failure_keeps_user_message_and_retry_appends_new_witness :
    (chat "g1" "c1" "hi" "mix" (fun _ _ => .error .other) sampleSt).state.messages
      = sampleSt.messages
        ++ [⟨sampleSt.nextMsgId, "c1", "user", "hi", none, sampleSt.now⟩] :=
  (chat_failure_keeps_user_message_and_retry_appends_new sampleSt "g1" "c1" "hi" "mix"
    (fun _ _ => .error .other) (fun _ _ => .error .other) .other
    (by decide) (by decide) (by decide)).1

end LightGraphRag
